import Mathlib

/-!
Verification of the asset-issuance core (`api/asset/asset.go`).

The file embeds the issuance path of the `asset` package: the `Issue`
operation, its per-output destination resolution (`Output.PKScript`),
output assembly (`addAssetIssuanceOutputs`), and issuance-input
construction (`issuanceInput` / `inputSigs`).  External collaborators
(asset lookup, address provisioning, address-to-script conversion,
transaction serialization, the double hash, hierarchical key derivation)
are modelled as abstract functions collected in an `Env` record; the
side effect of address provisioning is made explicit by threading a log
of provisioning requests through the computation.
-/

namespace ChainAsset

/-- Modelled from the spec: an address-provisioning request sent to the
external account store (`appdb.Address` as filled in by the caller of
`CreateAddress`): the managed-account ("bucket") identifier and the
change flag. The provisioning log is a list of these requests. -/
structure Address where
  bucketID : String
  isChange : Bool
deriving DecidableEq

/-- Modelled from the spec: the data the address-provisioning
collaborator fills in on success (`CreateAddress` populating the
`appdb.Address`): wallet identifier, address index, locking script. -/
structure ProvisionedAddress where
  walletID : String
  index : List Nat
  pkScript : List Nat
deriving DecidableEq

/-- `utxodb.Receiver`: metadata identifying which managed address an
output pays to. -/
structure Receiver where
  walletID : String
  bucketID : String
  addrIndex : List Nat
  isChange : Bool
deriving DecidableEq

/-- `asset.Output`: a caller-supplied destination request. -/
structure Output where
  assetID : String
  address : String
  bucketID : String
  amount : Int
  isChange : Bool
deriving DecidableEq

/-- `wire.OutPoint`: a reference to a prior transaction output. -/
structure OutPoint where
  hash : List Nat
  index : Nat
deriving DecidableEq

/-- `wire.TxIn`. -/
structure TxIn where
  previousOutPoint : OutPoint
  signatureScript : List Nat
deriving DecidableEq

/-- `wire.TxOut`: asset hash tag, amount, locking script. -/
structure TxOut where
  assetHash : List Nat
  value : Int
  pkScript : List Nat
deriving DecidableEq

/-- `wire.MsgTx`: the in-progress transaction. -/
structure MsgTx where
  txIn : List TxIn
  txOut : List TxOut
deriving DecidableEq

/-- Modelled from the spec: the `appdb.Asset` record as consumed by the
issuance path: chain-location hash, key group identifier, redeem
script, root signing keys (opaque handles here). -/
structure Asset where
  hash : List Nat
  groupID : String
  redeemScript : List Nat
  keys : List Nat
deriving DecidableEq

/-- A key produced by hierarchical derivation (`hdkey.Key`): an opaque
root-key handle plus the derivation path used. -/
structure DKey where
  root : Nat
  path : List Nat
deriving DecidableEq

/-- `asset.Signature`: an unsigned signature placeholder. -/
structure Signature where
  xpub : String
  derivationPath : List Nat
deriving DecidableEq

/-- `asset.Input`: the issuance input descriptor. -/
structure Input where
  assetGroupID : String
  redeemScript : List Nat
  signatureData : List Nat
  sigs : List Signature
deriving DecidableEq

/-- `asset.Tx`: the issuance result. -/
structure Tx where
  unsigned : List Nat
  blockChain : String
  inputs : List Input
  outRecvs : List (Option Receiver)
deriving DecidableEq

/-- Error raised inside `Output.PKScript`. -/
inductive PKScriptErr where
  | createAddress (bucketID : String)
  | badAddr (address : String)
deriving DecidableEq

/-- Error returned by `Issue`, with the annotations the code attaches. -/
inductive IssueErr where
  | assetNotFound (assetID : String)
  | badOutDest (index : Nat)
  | output (index : Nat) (e : PKScriptErr)
deriving DecidableEq

/-- Modelled from the spec: the external collaborators of the issuance
core, at their interface boundary (asset lookup, address provisioning,
address-to-script conversion, canonical serialization, double hash,
hierarchical key derivation, issuance-path computation, and the
externally serializable form of a root key). `createAddress` receives
the current provisioning log so its result may depend on store state
(each call consumes the next index for the account). -/
structure Env where
  assetByID : String → Option Asset
  createAddress : List Address → Address → Bool → Option ProvisionedAddress
  addrPkScript : String → Option (List Nat)
  serializeTx : MsgTx → List Nat
  doubleSha256 : List Nat → List Nat
  derive : List Nat → List Nat → List DKey
  issuancePath : Asset → List Nat
  xpubString : Nat → String

/-- `new(wire.Hash32)`: the all-zero 32-byte hash. -/
def Hash32zero : List Nat := List.replicate 32 0

/-- `wire.NewMsgTx`. -/
def NewMsgTx : MsgTx := { txIn := [], txOut := [] }

/-- `wire.NewOutPoint`. -/
def NewOutPoint (h : List Nat) (i : Nat) : OutPoint := { hash := h, index := i }

/-- `wire.NewTxIn`. -/
def NewTxIn (prev : OutPoint) (sig : List Nat) : TxIn :=
  { previousOutPoint := prev, signatureScript := sig }

/-- `wire.NewTxOut`. -/
def NewTxOut (assetHash : List Nat) (value : Int) (pk : List Nat) : TxOut :=
  { assetHash := assetHash, value := value, pkScript := pk }

/-- `(*wire.MsgTx).AddTxIn`. -/
def MsgTx.AddTxIn (tx : MsgTx) (ti : TxIn) : MsgTx :=
  { tx with txIn := tx.txIn ++ [ti] }

/-- `(*wire.MsgTx).AddTxOut`. -/
def MsgTx.AddTxOut (tx : MsgTx) (t : TxOut) : MsgTx :=
  { tx with txOut := tx.txOut ++ [t] }

/-- The transaction as initialized at the top of `Issue`:
`wire.NewMsgTx()` followed by
`tx.AddTxIn(wire.NewTxIn(wire.NewOutPoint(new(wire.Hash32), 0), []byte{}))`. -/
def initialTx : MsgTx := MsgTx.AddTxIn NewMsgTx (NewTxIn (NewOutPoint Hash32zero 0) [])

/-- `newOutputReceiver`: builds the `utxodb.Receiver` from the
provisioned address (whose `BucketID` field the caller set). -/
def newOutputReceiver (bucketID : String) (p : ProvisionedAddress) (isChange : Bool) : Receiver :=
  { walletID := p.walletID
    bucketID := bucketID
    addrIndex := p.index
    isChange := isChange }

/-- `(*Output).PKScript`: resolve one output to a locking script and an
optional receiver.  Bucket case: build the `appdb.Address` request and
call the provisioning collaborator (side effect recorded in the log);
address case: convert the textual address to a script.  Mirrors the
source's branch order (`o.BucketID != ""` first). -/
def Output.PKScript (env : Env) (o : Output) (s : List Address) :
    List Address × Except PKScriptErr (List Nat × Option Receiver) :=
  if o.bucketID != "" then
    let addr : Address := { bucketID := o.bucketID, isChange := o.isChange }
    match env.createAddress s addr false with
    | none => (s ++ [addr], Except.error (PKScriptErr.createAddress o.bucketID))
    | some p =>
        (s ++ [addr], Except.ok (p.pkScript, some (newOutputReceiver o.bucketID p o.isChange)))
  else
    match env.addrPkScript o.address with
    | none => (s, Except.error (PKScriptErr.badAddr o.address))
    | some script => (s, Except.ok (script, none))

/-- The loop body of `addAssetIssuanceOutputs`: `n` is the index of the
next output (for error annotation), `acc` the receivers gathered so
far. -/
def addOutsAux (env : Env) (asset : Asset) :
    List Address → MsgTx → List (Option Receiver) → Nat → List Output →
      List Address × Except IssueErr (MsgTx × List (Option Receiver))
  | s, tx, acc, _, [] => (s, Except.ok (tx, acc))
  | s, tx, acc, n, out :: rest =>
    match Output.PKScript env out s with
    | (s1, Except.error e) => (s1, Except.error (IssueErr.output n e))
    | (s1, Except.ok (pk, rv)) =>
        addOutsAux env asset s1 (MsgTx.AddTxOut tx (NewTxOut asset.hash out.amount pk))
          (acc ++ [rv]) (n + 1) rest

/-- `addAssetIssuanceOutputs`: append one transaction output per
request, collecting the receivers in order. -/
def addAssetIssuanceOutputs (env : Env) (s : List Address) (tx : MsgTx) (asset : Asset)
    (outs : List Output) : List Address × Except IssueErr (MsgTx × List (Option Receiver)) :=
  addOutsAux env asset s tx [] 0 outs

/-- The destination-ambiguity test from `Issue`'s validation loop:
`(out.BucketID == "") == (out.Address == "")`. -/
def isBadOutDest (o : Output) : Bool := (o.bucketID == "") == (o.address == "")

/-- The validation loop of `Issue`: index of the first output naming
zero or two destination kinds, if any (`n` is the index of the first
element of the remaining list). -/
def findBadOut : Nat → List Output → Option Nat
  | _, [] => none
  | n, o :: rest => if isBadOutDest o then some n else findBadOut (n + 1) rest

/-- `inputSigs`: one signature placeholder per derived key, in order,
pairing the root key's string form with the derivation path. -/
def inputSigs (env : Env) (keys : List DKey) : List Signature :=
  keys.map fun k => { xpub := env.xpubString k.root, derivationPath := k.path }

/-- `issuanceInput`: serialize the finalized transaction, double-hash
the bytes, and derive the signing keys along the asset's issuance
path. -/
def issuanceInput (env : Env) (a : Asset) (tx : MsgTx) : Input :=
  { assetGroupID := a.groupID
    redeemScript := a.redeemScript
    signatureData := env.doubleSha256 (env.serializeTx tx)
    sigs := inputSigs env (env.derive a.keys (env.issuancePath a)) }

/-- `Issue`: build the unsigned issuance transaction.  Control flow as
in the source: initialize the transaction with the null input, look up
the asset, validate every output's destination shape, resolve and
append the outputs, then serialize and package the result. -/
def Issue (env : Env) (s : List Address) (assetID : String) (outs : List Output) :
    List Address × Except IssueErr Tx :=
  match env.assetByID assetID with
  | none => (s, Except.error (IssueErr.assetNotFound assetID))
  | some asset =>
    match findBadOut 0 outs with
    | some i => (s, Except.error (IssueErr.badOutDest i))
    | none =>
      match addAssetIssuanceOutputs env s initialTx asset outs with
      | (s1, Except.error e) => (s1, Except.error e)
      | (s1, Except.ok (tx2, outRecvs)) =>
          (s1, Except.ok
            { unsigned := env.serializeTx tx2
              blockChain := "sandbox"
              inputs := [issuanceInput env asset tx2]
              outRecvs := outRecvs })

/-- The provisioning request generated by one output: one entry for a
bucket destination, none for a raw address. -/
def bucketReq (o : Output) : List Address :=
  if o.bucketID != "" then [{ bucketID := o.bucketID, isChange := o.isChange }] else []

/-- The provisioning requests generated by a list of outputs, in
order. -/
def bucketReqs : List Output → List Address
  | [] => []
  | o :: rest => bucketReq o ++ bucketReqs rest

/-! ### Helper lemmas -/

theorem bucketReqs_append (l1 l2 : List Output) :
    bucketReqs (l1 ++ l2) = bucketReqs l1 ++ bucketReqs l2 := by
  induction l1 with
  | nil => simp [bucketReqs]
  | cons o rest ih => simp [bucketReqs, ih]

theorem pkScript_state (env : Env) (o : Output) (s s2 : List Address)
    (r : Except PKScriptErr (List Nat × Option Receiver))
    (h : Output.PKScript env o s = (s2, r)) : s2 = s ++ bucketReq o := by
  unfold Output.PKScript at h
  by_cases hb : o.bucketID = ""
  · simp only [hb, bne_self_eq_false, Bool.false_eq_true, if_false] at h
    cases hc : env.addrPkScript o.address <;> rw [hc] at h <;>
      simp_all [bucketReq, hb]
  · have hb2 : (o.bucketID != "") = true := by simpa using hb
    simp only [hb2, if_true] at h
    cases hc : env.createAddress s { bucketID := o.bucketID, isChange := o.isChange } false <;>
      rw [hc] at h <;> simp_all [bucketReq, hb2]

theorem pkScript_ok_spec (env : Env) (o : Output) (s s2 : List Address)
    (pk : List Nat) (rv : Option Receiver)
    (h : Output.PKScript env o s = (s2, Except.ok (pk, rv))) :
    (o.bucketID = "" → env.addrPkScript o.address = some pk ∧ rv = none ∧ s2 = s) ∧
    (o.bucketID ≠ "" →
      ∃ p, env.createAddress s { bucketID := o.bucketID, isChange := o.isChange } false = some p ∧
        pk = p.pkScript ∧
        rv = some { walletID := p.walletID, bucketID := o.bucketID,
                    addrIndex := p.index, isChange := o.isChange } ∧
        s2 = s ++ [{ bucketID := o.bucketID, isChange := o.isChange }]) := by
  unfold Output.PKScript at h
  by_cases hb : o.bucketID = ""
  · refine ⟨fun _ => ?_, fun hne => absurd hb hne⟩
    simp only [hb, bne_self_eq_false, Bool.false_eq_true, if_false] at h
    cases hc : env.addrPkScript o.address <;> rw [hc] at h <;> simp_all
  · refine ⟨fun he => absurd he hb, fun _ => ?_⟩
    have hb2 : (o.bucketID != "") = true := by simpa using hb
    simp only [hb2, if_true] at h
    cases hc : env.createAddress s { bucketID := o.bucketID, isChange := o.isChange } false <;>
      rw [hc] at h
    · simp at h
    · refine ⟨_, rfl, ?_⟩
      simp_all [newOutputReceiver]

theorem pkScript_badAddr (env : Env) (o : Output) (s : List Address)
    (hb : o.bucketID = "") (hm : env.addrPkScript o.address = none) :
    Output.PKScript env o s = (s, Except.error (PKScriptErr.badAddr o.address)) := by
  unfold Output.PKScript
  simp [hb, hm]

theorem findBadOut_none (outs : List Output) :
    ∀ n : Nat, (∀ (j : Nat) (o : Output), outs[j]? = some o → isBadOutDest o = false) →
      findBadOut n outs = none := by
  induction outs with
  | nil => intro n _; rfl
  | cons o rest ih =>
    intro n h
    have h0 : isBadOutDest o = false := h 0 o (by simp)
    simp only [findBadOut, h0, Bool.false_eq_true, if_false]
    exact ih (n + 1) fun j oj hj => h (j + 1) oj (by simpa using hj)

theorem findBadOut_some_spec (outs : List Output) :
    ∀ (n j : Nat) (o : Output), outs[j]? = some o → isBadOutDest o = true →
      ∃ i oi, i ≤ j ∧ outs[i]? = some oi ∧ isBadOutDest oi = true ∧
        (∀ k ok2, k < i → outs[k]? = some ok2 → isBadOutDest ok2 = false) ∧
        findBadOut n outs = some (n + i) := by
  induction outs with
  | nil => intro n j o hj _; simp at hj
  | cons o0 rest ih =>
    intro n j o hj hb
    by_cases h0 : isBadOutDest o0 = true
    · exact ⟨0, o0, Nat.zero_le _, by simp, h0,
        fun k ok2 hk _ => absurd hk (Nat.not_lt_zero k),
        by simp [findBadOut, h0]⟩
    · have h0' : isBadOutDest o0 = false := by simpa using h0
      cases j with
      | zero =>
        have : o0 = o := by simpa using hj
        subst this
        exact absurd hb h0
      | succ j' =>
        have hj' : rest[j']? = some o := by simpa using hj
        obtain ⟨i, oi, hle, hio, hbad, hmin, hfind⟩ := ih (n + 1) j' o hj' hb
        refine ⟨i + 1, oi, Nat.succ_le_succ hle, by simpa using hio, hbad, ?_, ?_⟩
        · intro k ok2 hk hkk
          cases k with
          | zero =>
            have : o0 = ok2 := by simpa using hkk
            subst this
            exact h0'
          | succ k' => exact hmin k' ok2 (Nat.lt_of_succ_lt_succ hk) (by simpa using hkk)
        · simp only [findBadOut, h0', Bool.false_eq_true, if_false, hfind]
          congr 1
          omega

theorem addOutsAux_append (env : Env) (asset : Asset) (l1 : List Output) :
    ∀ (l2 : List Output) (s : List Address) (tx : MsgTx)
      (acc : List (Option Receiver)) (n : Nat),
      addOutsAux env asset s tx acc n (l1 ++ l2) =
        match addOutsAux env asset s tx acc n l1 with
        | (s1, Except.error e) => (s1, Except.error e)
        | (s1, Except.ok (tx1, acc1)) => addOutsAux env asset s1 tx1 acc1 (n + l1.length) l2 := by
  induction l1 with
  | nil => intro l2 s tx acc n; simp [addOutsAux]
  | cons out rest ih =>
    intro l2 s tx acc n
    simp only [List.cons_append, addOutsAux]
    cases hpk : Output.PKScript env out s with
    | mk s1 r =>
      cases r with
      | error e => simp
      | ok pr =>
        obtain ⟨pk, rv⟩ := pr
        dsimp only [List.append_eq, List.length_cons]
        rw [ih]
        cases haux : addOutsAux env asset s1
            (MsgTx.AddTxOut tx (NewTxOut asset.hash out.amount pk)) (acc ++ [rv]) (n + 1) rest with
        | mk s2 r2 =>
          cases r2 with
          | error e => rfl
          | ok pr2 =>
            obtain ⟨tx1, acc1⟩ := pr2
            have hn : n + (rest.length + 1) = n + 1 + rest.length := by omega
            rw [hn]

theorem bucketReq_change (o : Output) (a : Address) (ha : a ∈ bucketReq o) :
    a.isChange = o.isChange := by
  unfold bucketReq at ha
  split at ha <;> simp_all

theorem pkScript_change (env : Env) (o : Output) (s s2 : List Address)
    (pk : List Nat) (rv : Option Receiver)
    (h : Output.PKScript env o s = (s2, Except.ok (pk, rv))) :
    ∀ x : Receiver, rv = some x → x.isChange = o.isChange := by
  intro x hx
  obtain ⟨hraw, hbucket⟩ := pkScript_ok_spec env o s s2 pk rv h
  by_cases hb : o.bucketID = ""
  · obtain ⟨_, hrv, _⟩ := hraw hb
    rw [hrv] at hx
    simp at hx
  · obtain ⟨p, _, _, hrv, _⟩ := hbucket hb
    rw [hrv] at hx
    injection hx with hx
    subst hx
    rfl

theorem addOutsAux_ok_spec (env : Env) (asset : Asset) :
    ∀ (outs : List Output) (s : List Address) (tx : MsgTx) (acc : List (Option Receiver))
      (n : Nat) (s' : List Address) (tx' : MsgTx) (recvs : List (Option Receiver)),
      addOutsAux env asset s tx acc n outs = (s', Except.ok (tx', recvs)) →
      s' = s ++ bucketReqs outs ∧
      tx'.txIn = tx.txIn ∧
      tx'.txOut.length = tx.txOut.length + outs.length ∧
      recvs.length = acc.length + outs.length ∧
      (∀ j : Nat, j < tx.txOut.length → tx'.txOut[j]? = tx.txOut[j]?) ∧
      (∀ j : Nat, j < acc.length → recvs[j]? = acc[j]?) ∧
      (∀ (j : Nat) (o : Output), outs[j]? = some o →
        ∃ pk rv,
          Output.PKScript env o (s ++ bucketReqs (outs.take j)) =
            (s ++ bucketReqs (outs.take (j + 1)), Except.ok (pk, rv)) ∧
          tx'.txOut[tx.txOut.length + j]? = some (NewTxOut asset.hash o.amount pk) ∧
          recvs[acc.length + j]? = some rv) := by
  intro outs
  induction outs with
  | nil =>
    intro s tx acc n s' tx' recvs h
    simp only [addOutsAux, Prod.mk.injEq, Except.ok.injEq] at h
    obtain ⟨rfl, rfl, rfl⟩ := h
    refine ⟨by simp [bucketReqs], rfl, by simp, by simp, fun j _ => rfl, fun j _ => rfl, ?_⟩
    intro j o hj
    simp at hj
  | cons out rest ih =>
    intro s tx acc n s' tx' recvs h
    simp only [addOutsAux] at h
    cases hpk : Output.PKScript env out s with
    | mk s1 r =>
      rw [hpk] at h
      cases r with
      | error e => simp at h
      | ok pr =>
        obtain ⟨pk, rv⟩ := pr
        dsimp only at h
        have hs1 : s1 = s ++ bucketReq out := pkScript_state env out s s1 _ hpk
        obtain ⟨ihs, ihin, ihlen, ihrlen, ihtx, ihacc, ihidx⟩ :=
          ih s1 (MsgTx.AddTxOut tx (NewTxOut asset.hash out.amount pk)) (acc ++ [rv])
            (n + 1) s' tx' recvs h
        have h2len : (MsgTx.AddTxOut tx (NewTxOut asset.hash out.amount pk)).txOut.length =
            tx.txOut.length + 1 := by simp [MsgTx.AddTxOut]
        have h2alen : (acc ++ [rv]).length = acc.length + 1 := by simp
        refine ⟨?_, ?_, ?_, ?_, ?_, ?_, ?_⟩
        · rw [ihs, hs1, List.append_assoc]
          simp [bucketReqs]
        · simpa [MsgTx.AddTxOut] using ihin
        · rw [ihlen, h2len]
          simp
          omega
        · rw [ihrlen, h2alen]
          simp
          omega
        · intro j hj
          have hj2 : j < (MsgTx.AddTxOut tx (NewTxOut asset.hash out.amount pk)).txOut.length := by
            omega
          rw [ihtx j hj2]
          simp only [MsgTx.AddTxOut]
          exact List.getElem?_append_left hj
        · intro j hj
          have hj2 : j < (acc ++ [rv]).length := by
            rw [h2alen]; omega
          rw [ihacc j hj2]
          exact List.getElem?_append_left hj
        · intro j o hj
          cases j with
          | zero =>
            have : out = o := by simpa using hj
            subst this
            refine ⟨pk, rv, ?_, ?_, ?_⟩
            · rw [hs1] at hpk
              simpa [bucketReqs] using hpk
            · have hlt : tx.txOut.length <
                  (MsgTx.AddTxOut tx (NewTxOut asset.hash out.amount pk)).txOut.length := by
                omega
              have := ihtx tx.txOut.length hlt
              rw [Nat.add_zero]
              rw [this]
              simp [MsgTx.AddTxOut]
            · have hlt : acc.length < (acc ++ [rv]).length := by
                rw [h2alen]; omega
              have := ihacc acc.length hlt
              rw [Nat.add_zero]
              rw [this]
              simp
          | succ j' =>
            have hj' : rest[j']? = some o := by simpa using hj
            obtain ⟨pk2, rv2, hpkj, htxj, hrcj⟩ := ihidx j' o hj'
            refine ⟨pk2, rv2, ?_, ?_, ?_⟩
            · rw [hs1] at hpkj
              simpa [bucketReqs, List.append_assoc] using hpkj
            · have hidx : tx.txOut.length + (j' + 1) =
                  (MsgTx.AddTxOut tx (NewTxOut asset.hash out.amount pk)).txOut.length + j' := by
                omega
              rw [hidx]
              exact htxj
            · have hidx : acc.length + (j' + 1) = (acc ++ [rv]).length + j' := by
                rw [h2alen]; omega
              rw [hidx]
              exact hrcj

theorem addOutsAux_change_spec (env : Env) (asset : Asset) :
    ∀ (outs : List Output) (s : List Address) (tx : MsgTx) (acc : List (Option Receiver))
      (n : Nat) (s' : List Address) (r : Except IssueErr (MsgTx × List (Option Receiver))),
      (∀ o : Output, o ∈ outs → o.isChange = false) →
      addOutsAux env asset s tx acc n outs = (s', r) →
      (∀ a : Address, a ∈ s' → a ∈ s ∨ a.isChange = false) ∧
      (∀ (tx2 : MsgTx) (recvs : List (Option Receiver)), r = Except.ok (tx2, recvs) →
        ∀ rv : Option Receiver, rv ∈ recvs →
          rv ∈ acc ∨ ∀ x : Receiver, rv = some x → x.isChange = false) := by
  intro outs
  induction outs with
  | nil =>
    intro s tx acc n s' r _ h
    simp only [addOutsAux, Prod.mk.injEq] at h
    obtain ⟨rfl, rfl⟩ := h
    refine ⟨fun a ha => Or.inl ha, ?_⟩
    intro tx2 recvs hr rv hrv
    simp only [Except.ok.injEq, Prod.mk.injEq] at hr
    rw [← hr.2] at hrv
    exact Or.inl hrv
  | cons out rest ih =>
    intro s tx acc n s' r hout h
    have hout0 : out.isChange = false := hout out (by simp)
    have houtr : ∀ o : Output, o ∈ rest → o.isChange = false :=
      fun o ho => hout o (by simp [ho])
    simp only [addOutsAux] at h
    cases hpk : Output.PKScript env out s with
    | mk s1 r1 =>
      rw [hpk] at h
      have hs1 : s1 = s ++ bucketReq out := pkScript_state env out s s1 _ hpk
      have hmem1 : ∀ a : Address, a ∈ s1 → a ∈ s ∨ a.isChange = false := by
        intro a ha
        rw [hs1] at ha
        rcases List.mem_append.mp ha with h1 | h2
        · exact Or.inl h1
        · exact Or.inr ((bucketReq_change out a h2).trans hout0)
      cases r1 with
      | error e =>
        dsimp only at h
        simp only [Prod.mk.injEq] at h
        obtain ⟨rfl, rfl⟩ := h
        refine ⟨hmem1, ?_⟩
        intro tx2 recvs hr
        simp at hr
      | ok pr =>
        obtain ⟨pk, rv⟩ := pr
        dsimp only at h
        obtain ⟨ih1, ih2⟩ :=
          ih s1 (MsgTx.AddTxOut tx (NewTxOut asset.hash out.amount pk)) (acc ++ [rv])
            (n + 1) s' r houtr h
        refine ⟨?_, ?_⟩
        · intro a ha
          rcases ih1 a ha with h1 | h2
          · exact hmem1 a h1
          · exact Or.inr h2
        · intro tx2 recvs hr rv2 hrv2
          rcases ih2 tx2 recvs hr rv2 hrv2 with h1 | h2
          · rcases List.mem_append.mp h1 with ha | hb
            · exact Or.inl ha
            · right
              have : rv2 = rv := by simpa using hb
              subst this
              intro x hx
              exact (pkScript_change env out s s1 pk rv2 hpk x hx).trans hout0
          · exact Or.inr h2

theorem issue_ok_inv (env : Env) (s : List Address) (assetID : String) (outs : List Output)
    (s' : List Address) (t : Tx)
    (h : Issue env s assetID outs = (s', Except.ok t)) :
    ∃ (asset : Asset) (tx2 : MsgTx) (recvs : List (Option Receiver)),
      env.assetByID assetID = some asset ∧
      findBadOut 0 outs = none ∧
      addAssetIssuanceOutputs env s initialTx asset outs = (s', Except.ok (tx2, recvs)) ∧
      t = { unsigned := env.serializeTx tx2
            blockChain := "sandbox"
            inputs := [issuanceInput env asset tx2]
            outRecvs := recvs } := by
  unfold Issue at h
  cases ha : env.assetByID assetID with
  | none =>
    rw [ha] at h
    simp at h
  | some asset =>
    rw [ha] at h
    dsimp only at h
    cases hf : findBadOut 0 outs with
    | some i =>
      rw [hf] at h
      simp at h
    | none =>
      rw [hf] at h
      dsimp only at h
      cases haao : addAssetIssuanceOutputs env s initialTx asset outs with
      | mk s1 r =>
        rw [haao] at h
        cases r with
        | error e => simp at h
        | ok pr =>
          obtain ⟨tx2, recvs⟩ := pr
          dsimp only at h
          simp only [Prod.mk.injEq, Except.ok.injEq] at h
          obtain ⟨hs, ht⟩ := h
          exact ⟨asset, tx2, recvs, rfl, rfl, by rw [← hs]; exact haao, ht.symm⟩

/-! ### Claim theorems -/

/-- C1: For every successful call `issue(ctx, assetID, outs)`, the transaction's
output sequence and the result's receiver sequence are in one-to-one,
order-preserving correspondence with `outs`: the transaction has exactly
`len(outs)` outputs, the `i`-th output carries the asset's chain-location hash,
the `i`-th request's amount, and the `i`-th resolved locking script; the
receiver sequence has length `len(outs)`, its `i`-th entry is `none` for a
raw-address output, and for a managed-account output it carries the
wallet/account/index of the address provisioned for that request. -/
theorem issue_outputs_correspond (env : Env) (s : List Address) (assetID : String)
    (outs : List Output) (s' : List Address) (t : Tx) (asset : Asset)
    (ha : env.assetByID assetID = some asset)
    (h : Issue env s assetID outs = (s', Except.ok t)) :
    ∃ tx2 : MsgTx,
      t.unsigned = env.serializeTx tx2 ∧
      tx2.txOut.length = outs.length ∧
      t.outRecvs.length = outs.length ∧
      ∀ (j : Nat) (o : Output), outs[j]? = some o →
        ∃ (pk : List Nat) (rv : Option Receiver),
          tx2.txOut[j]? = some (NewTxOut asset.hash o.amount pk) ∧
          t.outRecvs[j]? = some rv ∧
          (o.bucketID = "" → env.addrPkScript o.address = some pk ∧ rv = none) ∧
          (o.bucketID ≠ "" →
            ∃ p : ProvisionedAddress,
              env.createAddress (s ++ bucketReqs (outs.take j))
                { bucketID := o.bucketID, isChange := o.isChange } false = some p ∧
              pk = p.pkScript ∧
              rv = some { walletID := p.walletID, bucketID := o.bucketID,
                          addrIndex := p.index, isChange := o.isChange }) := by
  obtain ⟨asset2, tx2, recvs, ha2, hf, haao, ht⟩ := issue_ok_inv env s assetID outs s' t h
  rw [ha] at ha2
  injection ha2 with ha2
  subst ha2
  obtain ⟨hs, hin, hlen, hrlen, htx, hacc, hidx⟩ :=
    addOutsAux_ok_spec env asset outs s initialTx [] 0 s' tx2 recvs haao
  refine ⟨tx2, by rw [ht], ?_, ?_, ?_⟩
  · simpa [initialTx, MsgTx.AddTxOut, MsgTx.AddTxIn, NewMsgTx] using hlen
  · rw [ht]; simpa using hrlen
  · intro j o hj
    obtain ⟨pk, rv, hpk, htxj, hrcj⟩ := hidx j o hj
    obtain ⟨hraw, hbucket⟩ := pkScript_ok_spec env o _ _ pk rv hpk
    refine ⟨pk, rv, ?_, ?_, ?_, ?_⟩
    · simpa [initialTx, MsgTx.AddTxOut, MsgTx.AddTxIn, NewMsgTx] using htxj
    · rw [ht]; simpa using hrcj
    · intro hb
      obtain ⟨h1, h2, _⟩ := hraw hb
      exact ⟨h1, h2⟩
    · intro hb
      obtain ⟨p, hp, hpk2, hrv, _⟩ := hbucket hb
      exact ⟨p, hp, hpk2, hrv⟩

/-- C2: For every call with a valid asset where some entry of `outs` names both
destination kinds or neither, `Issue` fails with a destination-ambiguity error
carrying the positional index of the first such entry, no result is returned,
and no address is provisioned for any output of the call (the provisioning log
is returned unchanged). -/
theorem issue_first_bad_dest (env : Env) (s : List Address) (assetID : String)
    (outs : List Output) (asset : Asset) (j : Nat) (o : Output)
    (ha : env.assetByID assetID = some asset)
    (hj : outs[j]? = some o) (hb : isBadOutDest o = true) :
    ∃ (i : Nat) (oi : Output), i ≤ j ∧ outs[i]? = some oi ∧ isBadOutDest oi = true ∧
      (∀ (k : Nat) (ok2 : Output), k < i → outs[k]? = some ok2 → isBadOutDest ok2 = false) ∧
      Issue env s assetID outs = (s, Except.error (IssueErr.badOutDest i)) := by
  obtain ⟨i, oi, hle, hio, hbad, hmin, hfind⟩ := findBadOut_some_spec outs 0 j o hj hb
  refine ⟨i, oi, hle, hio, hbad, hmin, ?_⟩
  unfold Issue
  rw [ha]
  dsimp only
  rw [hfind]
  simp

/-- C3: On every successful call, the issuance input descriptor's signing digest
equals the double hash of the serialized transaction bytes, and the `Unsigned`
bytes included in the result are exactly the bytes that were digested:
double-hashing the result's `Unsigned` bytes reproduces `SignatureData`. -/
theorem issue_digest (env : Env) (s : List Address) (assetID : String) (outs : List Output)
    (s' : List Address) (t : Tx)
    (h : Issue env s assetID outs = (s', Except.ok t)) :
    ∃ inp : Input, t.inputs = [inp] ∧ inp.signatureData = env.doubleSha256 t.unsigned := by
  obtain ⟨asset, tx2, recvs, _, _, _, ht⟩ := issue_ok_inv env s assetID outs s' t h
  exact ⟨issuanceInput env asset tx2, by rw [ht], by rw [ht]; rfl⟩

/-- C4: On every successful call, the issuance input descriptor's signature
placeholder sequence has exactly one placeholder per key returned by
hierarchical derivation along the asset's issuance path, in derivation order,
each pairing the key's externally serializable root identifier with the exact
derivation path used; with zero derived keys the sequence is empty and the
call still succeeds. -/
theorem issue_sig_placeholders (env : Env) (s : List Address) (assetID : String)
    (outs : List Output) (s' : List Address) (t : Tx) (asset : Asset)
    (ha : env.assetByID assetID = some asset)
    (h : Issue env s assetID outs = (s', Except.ok t)) :
    ∃ inp : Input, t.inputs = [inp] ∧
      inp.sigs = (env.derive asset.keys (env.issuancePath asset)).map
        (fun k => { xpub := env.xpubString k.root, derivationPath := k.path }) := by
  obtain ⟨asset2, tx2, recvs, ha2, _, _, ht⟩ := issue_ok_inv env s assetID outs s' t h
  rw [ha] at ha2
  injection ha2 with ha2
  subst ha2
  exact ⟨issuanceInput env asset tx2, by rw [ht], rfl⟩

/-- C6: Every call initializes the transaction with exactly one input whose
prior-output reference is null (all-zero prior transaction hash, index 0) and
whose signature script is empty; on success the result packages the issuance
input descriptor as a single-element sequence. -/
theorem issue_single_null_input (env : Env) (s : List Address) (assetID : String)
    (outs : List Output) (s' : List Address) (t : Tx)
    (h : Issue env s assetID outs = (s', Except.ok t)) :
    t.inputs.length = 1 ∧
    ∃ tx2 : MsgTx, t.unsigned = env.serializeTx tx2 ∧
      tx2.txIn = [{ previousOutPoint := { hash := List.replicate 32 0, index := 0 },
                    signatureScript := [] }] := by
  obtain ⟨asset, tx2, recvs, _, _, haao, ht⟩ := issue_ok_inv env s assetID outs s' t h
  obtain ⟨_, hin, _⟩ := addOutsAux_ok_spec env asset outs s initialTx [] 0 s' tx2 recvs haao
  refine ⟨by rw [ht]; rfl, tx2, by rw [ht], ?_⟩
  rw [hin]
  rfl

/-- C7: For a valid asset and validly shaped outputs, when the first failing
output is a raw-address output whose address the script converter rejects,
`Issue` fails with a bad-address error annotated with the offending address
string and that output's positional index, and no result is returned. -/
theorem issue_bad_address (env : Env) (s : List Address) (assetID : String)
    (outs : List Output) (asset : Asset) (i : Nat) (o : Output)
    (si : List Address) (txi : MsgTx) (rvs : List (Option Receiver))
    (ha : env.assetByID assetID = some asset)
    (hv : ∀ (k : Nat) (ok2 : Output), outs[k]? = some ok2 → isBadOutDest ok2 = false)
    (hpre : addAssetIssuanceOutputs env s initialTx asset (outs.take i) =
      (si, Except.ok (txi, rvs)))
    (hi : outs[i]? = some o)
    (hb : o.bucketID = "")
    (hm : env.addrPkScript o.address = none) :
    Issue env s assetID outs =
      (si, Except.error (IssueErr.output i (PKScriptErr.badAddr o.address))) := by
  have hlen : i < outs.length := by
    by_contra hc
    push_neg at hc
    rw [List.getElem?_eq_none_iff.mpr hc] at hi
    simp at hi
  have hdrop : outs.drop i = o :: outs.drop (i + 1) := by
    rw [List.drop_eq_getElem_cons hlen]
    have : outs[i] = o := by
      rw [List.getElem?_eq_getElem hlen] at hi
      injection hi
    rw [this]
  have hsplit : outs = outs.take i ++ (o :: outs.drop (i + 1)) := by
    rw [← hdrop, List.take_append_drop]
  have htl : (outs.take i).length = i := by
    rw [List.length_take]
    omega
  have hpre2 : addOutsAux env asset s initialTx [] 0 (outs.take i) =
      (si, Except.ok (txi, rvs)) := hpre
  unfold Issue
  rw [ha]
  dsimp only
  rw [findBadOut_none outs 0 hv]
  dsimp only
  unfold addAssetIssuanceOutputs
  rw [hsplit, addOutsAux_append, hpre2]
  dsimp only
  simp only [addOutsAux]
  rw [pkScript_badAddr env o si hb hm]
  dsimp only
  rw [htl]
  simp

/-- C8: For every call where the asset identifier does not resolve, `Issue`
fails with an asset-not-found error annotated with the asset identifier, and
no result is returned. -/
theorem issue_asset_not_found (env : Env) (s : List Address) (assetID : String)
    (outs : List Output) (h : env.assetByID assetID = none) :
    Issue env s assetID outs = (s, Except.error (IssueErr.assetNotFound assetID)) := by
  unfold Issue
  rw [h]

/-- C9: Asset lookup is performed before any destination validation or
resolution: when lookup fails, `Issue` returns the asset-not-found error even
when the output sequence contains a destination-ambiguity violation, and the
provisioning log is returned unchanged (no output is resolved or
provisioned). -/
theorem issue_lookup_precedence (env : Env) (s : List Address) (assetID : String)
    (outs : List Output) (j : Nat) (o : Output)
    (hnf : env.assetByID assetID = none)
    (_hj : outs[j]? = some o) (_hb : isBadOutDest o = true) :
    Issue env s assetID outs = (s, Except.error (IssueErr.assetNotFound assetID)) := by
  unfold Issue
  rw [hnf]

/-- C10: When no caller-supplied output carries the internal change flag (the
field is unexported, never set on the issue path, and defaults to false),
every address provisioned during `Issue` is requested with the change flag
false and every receiver descriptor produced has its change flag false. -/
theorem issue_no_change (env : Env) (s : List Address) (assetID : String)
    (outs : List Output) (s' : List Address) (r : Except IssueErr Tx)
    (hout : ∀ o : Output, o ∈ outs → o.isChange = false)
    (h : Issue env s assetID outs = (s', r)) :
    (∀ a : Address, a ∈ s' → a ∈ s ∨ a.isChange = false) ∧
    (∀ t : Tx, r = Except.ok t → ∀ rv : Option Receiver, rv ∈ t.outRecvs →
      ∀ x : Receiver, rv = some x → x.isChange = false) := by
  unfold Issue at h
  cases ha : env.assetByID assetID with
  | none =>
    rw [ha] at h
    dsimp only at h
    injection h with h1 h2
    subst h1
    subst h2
    refine ⟨fun a ha2 => Or.inl ha2, ?_⟩
    intro t hr
    exact absurd hr (by simp)
  | some asset =>
    rw [ha] at h
    dsimp only at h
    cases hf : findBadOut 0 outs with
    | some i =>
      rw [hf] at h
      dsimp only at h
      injection h with h1 h2
      subst h1
      subst h2
      refine ⟨fun a ha2 => Or.inl ha2, ?_⟩
      intro t hr
      exact absurd hr (by simp)
    | none =>
      rw [hf] at h
      dsimp only at h
      cases haao : addAssetIssuanceOutputs env s initialTx asset outs with
      | mk s1 r1 =>
        rw [haao] at h
        have haux : addOutsAux env asset s initialTx [] 0 outs = (s1, r1) := haao
        obtain ⟨c1, c2⟩ :=
          addOutsAux_change_spec env asset outs s initialTx [] 0 s1 r1 hout haux
        cases r1 with
        | error e =>
          dsimp only at h
          injection h with h1 h2
          subst h1
          subst h2
          refine ⟨c1, ?_⟩
          intro t hr
          exact absurd hr (by simp)
        | ok pr =>
          obtain ⟨tx2, recvs⟩ := pr
          dsimp only at h
          injection h with h1 h2
          subst h1
          subst h2
          refine ⟨c1, ?_⟩
          intro t hr rv hrv x hx
          have ht : t = { unsigned := env.serializeTx tx2
                          blockChain := "sandbox"
                          inputs := [issuanceInput env asset tx2]
                          outRecvs := recvs } := by
            injection hr with hr
            exact hr.symm
          have hrv2 : rv ∈ recvs := by
            rw [ht] at hrv
            simpa using hrv
          rcases c2 tx2 recvs rfl rv hrv2 with hmem | hp
          · simp at hmem
          · exact hp x hx

theorem findBadOut_map_assetID (f : Output → String) (outs : List Output) :
    ∀ n : Nat, findBadOut n (outs.map fun o => { o with assetID := f o }) =
      findBadOut n outs := by
  induction outs with
  | nil => intro n; rfl
  | cons o rest ih =>
    intro n
    simp only [List.map_cons, findBadOut]
    rw [ih]
    rfl

theorem addOutsAux_map_assetID (env : Env) (asset : Asset) (f : Output → String) :
    ∀ (outs : List Output) (s : List Address) (tx : MsgTx)
      (acc : List (Option Receiver)) (n : Nat),
      addOutsAux env asset s tx acc n (outs.map fun o => { o with assetID := f o }) =
        addOutsAux env asset s tx acc n outs := by
  intro outs
  induction outs with
  | nil => intro s tx acc n; rfl
  | cons out rest ih =>
    intro s tx acc n
    simp only [List.map_cons, addOutsAux]
    cases hpk : Output.PKScript env out s with
    | mk s1 r =>
      have hpk2 : Output.PKScript env { out with assetID := f out } s = (s1, r) := hpk
      rw [hpk2]
      cases r with
      | error e => rfl
      | ok pr =>
        obtain ⟨pk, rv⟩ := pr
        dsimp only
        exact ih s1 (MsgTx.AddTxOut tx (NewTxOut asset.hash out.amount pk)) (acc ++ [rv]) (n + 1)

/-- C5 (corrected): `Issue` never inspects an output's `AssetID` field: the
whole result (state, transaction, receivers, or error) is unchanged under any
rewriting of the `assetID` fields of the requests. A mismatched asset
identifier in an output is therefore not rejected. -/
theorem issue_ignores_out_assetID (env : Env) (s : List Address) (assetID : String)
    (outs : List Output) (f : Output → String) :
    Issue env s assetID (outs.map fun o => { o with assetID := f o }) =
      Issue env s assetID outs := by
  unfold Issue
  cases ha : env.assetByID assetID with
  | none => rfl
  | some asset =>
    dsimp only
    rw [findBadOut_map_assetID]
    cases hf : findBadOut 0 outs with
    | some i => rfl
    | none =>
      dsimp only
      unfold addAssetIssuanceOutputs
      rw [addOutsAux_map_assetID]

/-! ### Concrete example environment and calls -/

/-- A concrete asset record used for closed evaluations. -/
def exAsset : Asset := { hash := [3], groupID := "g", redeemScript := [2], keys := [10, 11] }

/-- A concrete instantiation of the collaborators. -/
def exEnv : Env where
  assetByID := fun aid => if aid == "A" then some exAsset else none
  createAddress := fun s _ _ => some { walletID := "w1", index := [s.length], pkScript := [8] }
  addrPkScript := fun a => if a == "bad" then none else some [7]
  serializeTx := fun tx => [tx.txIn.length, tx.txOut.length]
  doubleSha256 := fun l => 1 :: l
  derive := fun keys path => keys.map fun k => { root := k, path := path }
  issuancePath := fun _ => [0, 1]
  xpubString := fun n => if n == 10 then "xa" else "xb"

/-- One raw-address request and one managed-account request. -/
def exOuts : List Output :=
  [{ assetID := "A", address := "addr1", bucketID := "", amount := 100, isChange := false },
   { assetID := "A", address := "", bucketID := "b1", amount := 50, isChange := false }]

/-- The provisioning log produced by the call on `exOuts`. -/
def exFinalLog : List Address := [{ bucketID := "b1", isChange := false }]

/-- The receiver provisioned for the managed-account request of `exOuts`. -/
def exRecv : Receiver := { walletID := "w1", bucketID := "b1", addrIndex := [0], isChange := false }

/-- The issuance input descriptor produced by the call on `exOuts`. -/
def exInput : Input :=
  { assetGroupID := "g", redeemScript := [2], signatureData := [1, 1, 2],
    sigs := [{ xpub := "xa", derivationPath := [0, 1] },
             { xpub := "xb", derivationPath := [0, 1] }] }

/-- The issuance result produced by the call on `exOuts`. -/
def exTx : Tx :=
  { unsigned := [1, 2], blockChain := "sandbox", inputs := [exInput],
    outRecvs := [none, some exRecv] }

/-- An output sequence whose second entry names both destination kinds. -/
def exAmbOuts : List Output :=
  [{ assetID := "A", address := "addr1", bucketID := "", amount := 1, isChange := false },
   { assetID := "A", address := "addr2", bucketID := "b2", amount := 2, isChange := false }]

/-- An output sequence whose second entry is a malformed raw address. -/
def exBadAddrOuts : List Output :=
  [{ assetID := "A", address := "addr1", bucketID := "", amount := 1, isChange := false },
   { assetID := "A", address := "bad", bucketID := "", amount := 2, isChange := false }]

/-- The partial transaction after resolving the first entry of `exBadAddrOuts`. -/
def exTxi : MsgTx :=
  { txIn := [{ previousOutPoint := { hash := List.replicate 32 0, index := 0 },
               signatureScript := [] }],
    txOut := [{ assetHash := [3], value := 1, pkScript := [7] }] }

/-- A single output whose `assetID` field differs from the asset being issued. -/
def exMismatchOuts : List Output :=
  [{ assetID := "B", address := "addr1", bucketID := "", amount := 100, isChange := false }]

/-- The issuance result for `exMismatchOuts` (the call succeeds). -/
def exMismatchTx : Tx :=
  { unsigned := [1, 1], blockChain := "sandbox",
    inputs := [{ assetGroupID := "g", redeemScript := [2], signatureData := [1, 1, 1],
                 sigs := [{ xpub := "xa", derivationPath := [0, 1] },
                          { xpub := "xb", derivationPath := [0, 1] }] }],
    outRecvs := [none] }

/-- C5 (counterexample): a call whose only output carries an asset identifier
different from the asset being issued succeeds; the mismatched output is not
rejected. -/
theorem issue_assetID_mismatch_counterexample :
    (∀ o : Output, o ∈ exMismatchOuts → o.assetID ≠ "A") ∧
    Issue exEnv [] "A" exMismatchOuts = ([], Except.ok exMismatchTx) := by
  constructor
  · decide
  · rfl

theorem forall_getElem_of_forall_mem {α : Type} (l : List α) (P : α → Prop)
    (h : ∀ a : α, a ∈ l → P a) : ∀ (k : Nat) (a : α), l[k]? = some a → P a :=
  fun _ a hk => h a (List.getElem?_mem hk)

/-- The collaborators of `exEnv`, with key derivation yielding zero keys. -/
def exEnv0 : Env := { exEnv with derive := fun _ _ => [] }

/-- The issuance input descriptor for the zero-key environment. -/
def exInput0 : Input :=
  { assetGroupID := "g", redeemScript := [2], signatureData := [1, 1, 2], sigs := [] }

/-- The issuance result for the zero-key environment on `exOuts`. -/
def exTx0 : Tx :=
  { unsigned := [1, 2], blockChain := "sandbox", inputs := [exInput0],
    outRecvs := [none, some exRecv] }

/-! ### Witnesses -/

/-- C1 witness: the correspondence evaluated on a concrete successful call. -/
theorem issue_outputs_correspond_witness :
    ∃ tx2 : MsgTx,
      exTx.unsigned = exEnv.serializeTx tx2 ∧
      tx2.txOut.length = exOuts.length ∧
      exTx.outRecvs.length = exOuts.length ∧
      ∀ (j : Nat) (o : Output), exOuts[j]? = some o →
        ∃ (pk : List Nat) (rv : Option Receiver),
          tx2.txOut[j]? = some (NewTxOut exAsset.hash o.amount pk) ∧
          exTx.outRecvs[j]? = some rv ∧
          (o.bucketID = "" → exEnv.addrPkScript o.address = some pk ∧ rv = none) ∧
          (o.bucketID ≠ "" →
            ∃ p : ProvisionedAddress,
              exEnv.createAddress ([] ++ bucketReqs (exOuts.take j))
                { bucketID := o.bucketID, isChange := o.isChange } false = some p ∧
              pk = p.pkScript ∧
              rv = some { walletID := p.walletID, bucketID := o.bucketID,
                          addrIndex := p.index, isChange := o.isChange }) :=
  issue_outputs_correspond exEnv [] "A" exOuts exFinalLog exTx exAsset rfl rfl

/-- C2 witness: a concrete call with a both-kinds output fails with the
destination-ambiguity error at that index and an unchanged log. -/
theorem issue_first_bad_dest_witness :
    ∃ (i : Nat) (oi : Output), i ≤ 1 ∧ exAmbOuts[i]? = some oi ∧ isBadOutDest oi = true ∧
      (∀ (k : Nat) (ok2 : Output), k < i → exAmbOuts[k]? = some ok2 →
        isBadOutDest ok2 = false) ∧
      Issue exEnv [] "A" exAmbOuts = ([], Except.error (IssueErr.badOutDest i)) :=
  issue_first_bad_dest exEnv [] "A" exAmbOuts exAsset 1
    { assetID := "A", address := "addr2", bucketID := "b2", amount := 2, isChange := false }
    rfl (by decide) (by decide)

/-- C3 witness: the digest relation evaluated on a concrete successful call. -/
theorem issue_digest_witness :
    ∃ inp : Input, exTx.inputs = [inp] ∧
      inp.signatureData = exEnv.doubleSha256 exTx.unsigned :=
  issue_digest exEnv [] "A" exOuts exFinalLog exTx rfl

/-- C4 witness: the placeholder correspondence on a concrete call whose
derivation yields zero keys; the call still succeeds with an empty
placeholder sequence. -/
theorem issue_sig_placeholders_witness :
    ∃ inp : Input, exTx0.inputs = [inp] ∧
      inp.sigs = (exEnv0.derive exAsset.keys (exEnv0.issuancePath exAsset)).map
        (fun k => { xpub := exEnv0.xpubString k.root, derivationPath := k.path }) :=
  issue_sig_placeholders exEnv0 [] "A" exOuts exFinalLog exTx0 exAsset rfl rfl

/-- C6 witness: single null input, evaluated on a concrete successful call. -/
theorem issue_single_null_input_witness :
    exTx.inputs.length = 1 ∧
    ∃ tx2 : MsgTx, exTx.unsigned = exEnv.serializeTx tx2 ∧
      tx2.txIn = [{ previousOutPoint := { hash := List.replicate 32 0, index := 0 },
                    signatureScript := [] }] :=
  issue_single_null_input exEnv [] "A" exOuts exFinalLog exTx rfl

/-- C7 witness: a concrete call whose second output is a malformed raw address
fails with the bad-address error annotated with that address and index 1. -/
theorem issue_bad_address_witness :
    Issue exEnv [] "A" exBadAddrOuts =
      ([], Except.error (IssueErr.output 1 (PKScriptErr.badAddr "bad"))) :=
  issue_bad_address exEnv [] "A" exBadAddrOuts exAsset 1
    { assetID := "A", address := "bad", bucketID := "", amount := 2, isChange := false }
    [] exTxi [none] rfl
    (forall_getElem_of_forall_mem exBadAddrOuts (fun o => isBadOutDest o = false) (by decide))
    rfl (by decide) (by decide) (by decide)

/-- C8 witness: a concrete call with an unknown asset identifier fails with
the asset-not-found error carrying that identifier. -/
theorem issue_asset_not_found_witness :
    Issue exEnv [] "Z" exOuts = ([], Except.error (IssueErr.assetNotFound "Z")) :=
  issue_asset_not_found exEnv [] "Z" exOuts rfl

/-- C9 witness: with an unknown asset and an ambiguous output, the
asset-not-found error is returned, not the destination-ambiguity error. -/
theorem issue_lookup_precedence_witness :
    Issue exEnv [] "Z" exAmbOuts = ([], Except.error (IssueErr.assetNotFound "Z")) :=
  issue_lookup_precedence exEnv [] "Z" exAmbOuts 1
    { assetID := "A", address := "addr2", bucketID := "b2", amount := 2, isChange := false }
    rfl (by decide) (by decide)

/-- C10 witness: on a concrete call whose outputs carry no change flag, every
provisioning request and every produced receiver has the change flag false. -/
theorem issue_no_change_witness :
    (∀ a : Address, a ∈ exFinalLog → a ∈ ([] : List Address) ∨ a.isChange = false) ∧
    (∀ t : Tx, (Except.ok exTx : Except IssueErr Tx) = Except.ok t →
      ∀ rv : Option Receiver, rv ∈ t.outRecvs →
        ∀ x : Receiver, rv = some x → x.isChange = false) :=
  issue_no_change exEnv [] "A" exOuts exFinalLog (Except.ok exTx) (by decide) rfl

end ChainAsset
